import Mathlib

set_option maxRecDepth 40000

/-!
Verification of the screenshot sub-engine of the tutorial build pipeline
(`src/plugins/screenshot`-style module).  The TypeScript source is embedded
shallowly: pure string manipulation becomes Lean functions on `String` /
`List Char`, the side-effecting handler becomes a function returning the
ordered list of external effects it performs together with its
`Except`-style result, and `assert`/`throw` become the `Except.error`
branch.  External Node library functions used by the source
(`path.basename`, `path.extname`, `path.join`, `JSON.stringify`,
`String.prototype.split`) are modelled faithfully for the POSIX / ASCII
inputs the handler deals in.
-/

namespace Screenshot

/-- The `Args` record produced by `parseArgs` with the optional fields
already defaulted (`height`, `x`, `y` default to `0`, `retina` to
`false`), mirroring the `interface Args` plus the `optional(...)`
descriptors at the call site. -/
structure Args where
  filename : String
  alt : String
  width : Int
  height : Int
  x : Int
  y : Int
  retina : Bool
deriving Repr, DecidableEq

/-- The viewport object built in `compile`. -/
structure Viewport where
  width : Int
  height : Int
  deviceScaleFactor : Int
deriving Repr, DecidableEq

/-- One compiled automation step (`visit` or `wait`).  The argument is
`none` when the directive line had no second token (JS `split` yields
`undefined` there). -/
inductive Step where
  | visit (arg : Option String)
  | wait (arg : Option String)
deriving Repr, DecidableEq

/-- The markdown node returned by the handler: a plain image node or a raw
HTML node; both carry the original code block's `position` and `data`
fields (modelled as opaque optional payloads). -/
inductive Node where
  | image (url alt : String) (position data : Option String)
  | html (value : String) (position data : Option String)
deriving Repr, DecidableEq

/-- The source position carried by a result node. -/
def Node.position : Node → Option String
  | .image _ _ p _ => p
  | .html _ p _ => p

/-- The side-channel `data` field carried by a result node. -/
def Node.data : Node → Option String
  | .image _ _ _ d => d
  | .html _ _ d => d

/-- An external side effect performed by the handler, in order:
`mkdirp(dir)`, spawning `node -` with the compiled script on stdin, and
reading the produced image's dimensions with `image-size`. -/
inductive Effect where
  | mkdirp (dir : String)
  | exec (script : String)
  | imageSize (path : String)
deriving Repr, DecidableEq

/-- Whether an effect spawns the browser-automation child process. -/
def Effect.isExec : Effect → Bool
  | .exec _ => true
  | _ => false

/-! ### Models of the external Node helpers -/

/-- Characters matched by the JavaScript regex class `\s` (ASCII part;
the directive lines the engine splits contain only ASCII whitespace). -/
def isWsChar (c : Char) : Bool :=
  c == ' ' || c == '\t' || c == '\n' || c == '\r' || c == '\x0b' || c == '\x0c'

/-- JS `line.split(/\s+/, 2)`: the first whitespace-free token, and, when
any whitespace occurs, the second token (text after the first whitespace
run, up to the next whitespace character). -/
def jsSplitWs2 (s : List Char) : List Char × Option (List Char) :=
  let t0 := s.takeWhile (fun c => !isWsChar c)
  let r := s.dropWhile (fun c => !isWsChar c)
  match r with
  | [] => (t0, none)
  | _ :: _ =>
    let r2 := r.dropWhile isWsChar
    (t0, some (r2.takeWhile (fun c => !isWsChar c)))

/-- JS `body.split('\n')`: pieces between newline characters, keeping
empty pieces (so `""` gives `[""]` and a trailing newline yields a final
empty piece). -/
def splitNl : List Char → List (List Char)
  | [] => [[]]
  | '\n' :: rest => [] :: splitNl rest
  | c :: rest =>
    match splitNl rest with
    | [] => [[c]]
    | h :: t => (c :: h) :: t

/-- The basename part of a POSIX path: everything after the last `/`. -/
def afterLastSlash (m : List Char) : List Char :=
  (m.reverse.takeWhile (fun c => !(c == '/'))).reverse

/-- Node `path.extname`: the extension of the basename part, i.e. the
substring from its last `.`, empty when there is no dot or the only dot
is the leading character (dotfiles have no extension).  Modelled for
names that do not consist solely of dots. -/
def extname (m : List Char) : List Char :=
  let b := afterLastSlash m
  let pre := b.reverse.takeWhile (fun c => !(c == '.'))
  if pre.length = b.length then []
  else if b.length - 1 - pre.length = 0 then []
  else '.' :: pre.reverse

/-- Node `path.basename(p, ext)`: the part after the last `/`, with `ext`
stripped when it is a proper suffix of that part (Node does not strip
when the whole path, or the whole basename, equals `ext`). -/
def jsBasename (m ext : List Char) : List Char :=
  if m = ext then []
  else
    let b := afterLastSlash m
    if b ≠ ext ∧ ext.isSuffixOf b then b.take (b.length - ext.length) else b

/-- JSON.stringify's escaping of one character inside a string literal. -/
def jsonEscapeChar (c : Char) : List Char :=
  if c = '"' then ['\\', '"']
  else if c = '\\' then ['\\', '\\']
  else if c = '\n' then ['\\', 'n']
  else if c = '\r' then ['\\', 'r']
  else if c = '\t' then ['\\', 't']
  else if c = '\x08' then ['\\', 'b']
  else if c = '\x0c' then ['\\', 'f']
  else if c.toNat < 32 then
    ['\\', 'u', '0', '0',
      (if c.toNat / 16 < 10 then Char.ofNat (48 + c.toNat / 16)
       else Char.ofNat (87 + c.toNat / 16)),
      (if c.toNat % 16 < 10 then Char.ofNat (48 + c.toNat % 16)
       else Char.ofNat (87 + c.toNat % 16))]
  else [c]

/-- `JSON.stringify` on a string value (the `js` helper applied to a
string): a double-quoted literal with the characters escaped. -/
def jsonStrL (l : List Char) : List Char :=
  '"' :: (l.map jsonEscapeChar).flatten ++ ['"']

/-- String-level wrapper for `jsonStrL`. -/
def jsonStr (s : String) : String :=
  String.mk (jsonStrL s.data)

/-! ### The `attr` helper (HTML attribute escaping) -/

/-- The replacement pass of `attr`: `String(v).replace(/<>"/g, cb)`.
The regex `/<>"/g` (no character class brackets) matches only the literal
three-character sequence `<>"`; on any match the callback's `switch`
compares the whole match against the single characters `<`, `>`, `"`,
falls through to `default`, and throws `Unknown character`.  So the
result is the input unchanged unless it contains the sequence `<>"`, in
which case the call throws. -/
def attrEscape : List Char → Except String (List Char)
  | [] => .ok []
  | c :: rest =>
    if c = '<' ∧ ['>', '"'].isPrefixOf rest then
      .error "Unknown character: \x60<>\"\x60"
    else (attrEscape rest).map (c :: ·)

/-- `attr(v)` for a string value: the (broken) replacement pass followed
by `JSON.stringify`. -/
def attr (s : String) : Except String String :=
  (attrEscape s.data).map (fun l => String.mk (jsonStrL l))

/-! ### `compile`: the generated browser-automation program -/

/-- The viewport literal built at the top of `compile`:
`{ width, height: height || 100, deviceScaleFactor: retina ? 2 : 1 }`
(JS `||` replaces the falsy height `0` by `100`). -/
def mkViewport (args : Args) : Viewport :=
  { width := args.width
    height := if args.height = 0 then 100 else args.height
    deviceScaleFactor := if args.retina then 2 else 1 }

/-- `js(viewport)`: JSON.stringify of the viewport object, keys in
insertion order. -/
def renderViewport (v : Viewport) : String :=
  "\x7b\"width\":" ++ toString v.width ++ ",\"height\":" ++ toString v.height
    ++ ",\"deviceScaleFactor\":" ++ toString v.deviceScaleFactor ++ "\x7d"

/-- `js(options)`: JSON.stringify of the `ScreenshotOptions` object —
full-page options when `height === 0`, clipped-region options otherwise. -/
def renderOptions (path : String) (args : Args) : String :=
  if args.height = 0 then
    "\x7b\"path\":" ++ jsonStr path ++ ",\"type\":\"png\",\"fullPage\":true\x7d"
  else
    "\x7b\"path\":" ++ jsonStr path ++ ",\"type\":\"png\",\"clip\":\x7b\"width\":"
      ++ toString args.width ++ ",\"height\":" ++ toString args.height
      ++ ",\"x\":" ++ toString args.x ++ ",\"y\":" ++ toString args.y
      ++ "\x7d\x7d"

/-- Template-literal interpolation of a possibly-`undefined` step
argument: `JSON.stringify(arg)` when present, the text `undefined`
otherwise. -/
def jsArg : Option String → String
  | none => "undefined"
  | some s => jsonStr s

/-- One directive line of the screenshot body, split as
`step.split(/\s+/, 2)` and dispatched on the first token; unknown verbs
throw `Unknown action`. -/
def parseStep (line : List Char) : Except String Step :=
  let p := jsSplitWs2 line
  if p.1 = "visit".data then .ok (.visit (p.2.map String.mk))
  else if p.1 = "wait".data then .ok (.wait (p.2.map String.mk))
  else .error ("Unknown action: " ++ String.mk p.1)

/-- The step-compilation loop of `compile`: iterate over the lines of the
body (split on `'\n'`), skip lines that are exactly empty, and stop with
the thrown error at the first unknown verb. -/
def compileSteps : List (List Char) → Except String (List Step)
  | [] => .ok []
  | line :: rest =>
    if line = [] then compileSteps rest
    else
      match parseStep line with
      | .error e => .error e
      | .ok s => (compileSteps rest).map (s :: ·)

/-- The rendered source line of one automation step. -/
def renderStep : Step → String
  | .visit a =>
    "  await page.goto(" ++ jsArg a ++ ", \x7b waitUtil: \x27networkidle0\x27 \x7d);"
  | .wait a => "  await page.waitForSelector(" ++ jsArg a ++ ");"

/-- The leading template literal pushed onto `script` before the loop. -/
def prologue (args : Args) : String :=
  "const puppeteer = require(\x27puppeteer\x27);\n\nasync function main() \x7b\n  let browser = await puppeteer.launch();\n  let page = await browser.newPage();\n  await page.setViewport("
    ++ renderViewport (mkViewport args) ++ ");\n"

/-- The trailing template literal pushed onto `script` after the loop
(image-load wait, `page.screenshot(options)`, close, and the non-zero
exit wrapper). -/
def epilogue (path : String) (args : Args) : String :=
  "\n  await page.$$eval(\x27img\x27, async imgs => \x7b\n    for (let img of imgs) \x7b\n      if (!img.complete || img.naturalHeight === 0) \x7b\n        await new Promise((resolve, reject) => \x7b\n          img.onload = resolve;\n          img.onerror = () => reject(\x60failed to load $\x7bimg.src\x7d\x60);\n        \x7d);\n      \x7d\n    \x7d\n  \x7d);\n  await page.screenshot("
    ++ renderOptions path args
    ++ ");\n  await browser.close();\n\x7d\n\nmain().catch(error => \x7b\n  console.error(error);\n  process.exit(1);\n\x7d);\n"

/-- JS `Array.prototype.join('\n')`. -/
def joinLines : List String → String
  | [] => ""
  | [s] => s
  | s :: rest => s ++ "\n" ++ joinLines rest

/-- The full text of the generated program for a given compiled step
list: prologue, one line per step, epilogue, joined with newlines. -/
def renderScript (steps : List Step) (path : String) (args : Args) : String :=
  joinLines (prologue args :: (steps.map renderStep ++ [epilogue path args]))

/-- `compile(steps, path, args)`: compile the body's lines and render the
program, or throw at the first unknown action. -/
def compile (body : String) (path : String) (args : Args) : Except String String :=
  (compileSteps (splitNl body.data)).map (fun s => renderScript s path args)

/-! ### The `screenshot` handler -/

/-- The parts of the run-time environment the handler observes: whether
the spawned `node -` process exits zero, and the pixel dimensions
`image-size` reads back from the produced file. -/
structure Env where
  execOk : Bool
  imgW : Nat
  imgH : Nat
deriving Repr, DecidableEq

/-- The raw-HTML `<img>` markup built in the retina branch, each
attribute value rendered through `attr` (which can throw). -/
def imgTag (src alt : String) (w h : Nat) : Except String String := do
  let a1 ← attr src
  let a2 ← attr alt
  let a3 ← attr (toString w)
  let a4 ← attr (toString h)
  .ok ("<img src=" ++ a1 ++ " alt=" ++ a2 ++ " width=" ++ a3 ++ " height=" ++ a4 ++ ">")

/-- The `screenshot` handler.  Inputs: the parsed `Args`, the assets
root, the document's `vfile.basename` (`none`/empty fails the first
assert), the code block's `position` and `data` payloads, the block body,
and the environment.  Output: the ordered list of external effects
performed, and the returned node or the thrown error message.  The four
`assert` calls run before any effect; `mkdirp` precedes `compile`, which
precedes the `node -` child process, which precedes `image-size`. -/
def screenshot (args : Args) (assets : String) (vb : Option String)
    (pos data : Option String) (body : String) (env : Env) :
    List Effect × Except String Node :=
  match vb with
  | none => ([], .error "unknown basename")
  | some vbn =>
    if vbn = "" then ([], .error "unknown basename")
    else if ¬ extname args.filename.data = ".png".data then
      ([], .error ("filename must have .png extnsion (" ++ args.filename ++ ")"))
    else if ¬ args.width > 0 then ([], .error "width must be positive")
    else if ¬ (args.height ≠ 0 ∨ (args.x = 0 ∧ args.y = 0)) then
      ([], .error "cannot specify x and y for fullscreen screenshots (height=0)")
    else
      let ns := String.mk (jsBasename vbn.data ".md".data)
      let dir := assets ++ "/screenshots/" ++ ns
      let filename :=
        if args.retina then String.mk (jsBasename args.filename.data ".png".data) ++ "@2x.png"
        else args.filename
      let path := dir ++ "/" ++ filename
      match compile body path args with
      | .error e => ([.mkdirp dir], .error e)
      | .ok script =>
        if env.execOk = false then
          ([.mkdirp dir, .exec script], .error "non-zero exit from node")
        else
          let src := "/screenshots/" ++ ns ++ "/" ++ filename
          if args.retina then
            let w := env.imgW / 2
            let h := env.imgH / 2
            match imgTag src args.alt w h with
            | .error e => ([.mkdirp dir, .exec script, .imageSize path], .error e)
            | .ok value =>
              ([.mkdirp dir, .exec script, .imageSize path], .ok (.html value pos data))
          else
            ([.mkdirp dir, .exec script], .ok (.image src args.alt pos data))

/-- Whether an `Except` result is a success. -/
def exOk {ε α : Type} : Except ε α → Bool
  | .ok _ => true
  | .error _ => false

/-! ### Substring search (used to state facts about the generated text) -/

/-- Boolean substring test on character lists. -/
def substrB (p : List Char) : List Char → Bool
  | [] => p.isEmpty
  | c :: rest => p.isPrefixOf (c :: rest) || substrB p rest

/-! ### Helper lemmas about substring search and the generated text -/

theorem substrB_nil_pat (s : List Char) : substrB [] s = true := by
  cases s with
  | nil => rfl
  | cons c rest => simp [substrB]

theorem substrB_of_isPref {p s : List Char} (h : p.isPrefixOf s = true) :
    substrB p s = true := by
  cases s with
  | nil =>
    cases p with
    | nil => rfl
    | cons c t => simp [List.isPrefixOf] at h
  | cons c rest => simp [substrB, h]

theorem substrB_cons {p s : List Char} (c : Char) (h : substrB p s = true) :
    substrB p (c :: s) = true := by
  simp [substrB, h]

theorem substrB_append_left {p s : List Char} (a : List Char) (h : substrB p s = true) :
    substrB p (a ++ s) = true := by
  induction a with
  | nil => exact h
  | cons c t ih => exact substrB_cons c ih

theorem isPrefixOf_extend {p s : List Char} (b : List Char) (h : p.isPrefixOf s = true) :
    p.isPrefixOf (s ++ b) = true :=
  List.isPrefixOf_iff_prefix.mpr
    (( List.isPrefixOf_iff_prefix.mp h).trans (List.prefix_append s b))

theorem substrB_append_right {p s : List Char} (b : List Char) (h : substrB p s = true) :
    substrB p (s ++ b) = true := by
  induction s with
  | nil =>
    have hp : p = [] := by simpa [substrB, List.isEmpty_iff] using h
    subst hp
    exact substrB_nil_pat b
  | cons c rest ih =>
    simp only [substrB, Bool.or_eq_true] at h
    rcases h with h | h
    · exact substrB_of_isPref (isPrefixOf_extend b h)
    · exact substrB_cons c (ih h)

theorem substrB_middle {p s : List Char} (a b : List Char) (h : substrB p s = true) :
    substrB p (a ++ s ++ b) = true := by
  rw [List.append_assoc]
  exact substrB_append_left a (substrB_append_right b h)

theorem joinLines_cons_cons (s t : String) (u : List String) :
    joinLines (s :: t :: u) = s ++ "\n" ++ joinLines (t :: u) := rfl

theorem substrB_joinLines_head {p : List Char} (s : String) (l : List String)
    (h : substrB p s.data = true) : substrB p (joinLines (s :: l)).data = true := by
  cases l with
  | nil => exact h
  | cons t u =>
    rw [joinLines_cons_cons, String.data_append]
    exact substrB_append_right _ (by rw [String.data_append]; exact substrB_append_right _ h)

theorem substrB_joinLines_last {p : List Char} (l : List String) (e : String)
    (h : substrB p e.data = true) : substrB p (joinLines (l ++ [e])).data = true := by
  induction l with
  | nil => exact h
  | cons s t ih =>
    rw [List.cons_append]
    cases ht : t ++ [e] with
    | nil => simp at ht
    | cons x u =>
      rw [joinLines_cons_cons, String.data_append]
      apply substrB_append_left
      rw [← ht]
      exact ih

/-! ### Helper lemmas about digit strings and escaping -/

theorem digitChar_isDigit {n : Nat} (h : n < 10) : (Nat.digitChar n).isDigit = true := by
  interval_cases n <;> decide

theorem toDigitsCore_digits : ∀ (f n : Nat) (ds : List Char),
    (∀ c ∈ ds, c.isDigit = true) →
    ∀ c ∈ Nat.toDigitsCore 10 f n ds, c.isDigit = true := by
  intro f
  induction f with
  | zero => intro n ds hds; simpa [Nat.toDigitsCore] using hds
  | succ f ih =>
    intro n ds hds
    have hd : ∀ c ∈ Nat.digitChar (n % 10) :: ds, c.isDigit = true := by
      intro c hc
      rcases List.mem_cons.mp hc with rfl | hc
      · exact digitChar_isDigit (Nat.mod_lt _ (by norm_num))
      · exact hds c hc
    by_cases h0 : n / 10 = 0
    · simpa [Nat.toDigitsCore, h0] using hd
    · simpa [Nat.toDigitsCore, h0] using ih _ _ hd

theorem toString_nat_digits (n : Nat) : ∀ c ∈ (toString n).data, c.isDigit = true := by
  have he : (toString n).data = Nat.toDigitsCore 10 (n + 1) n [] := rfl
  rw [he]
  exact toDigitsCore_digits (n + 1) n [] (by simp)

theorem digit_ne {c : Char} (d : Char) (h : c.isDigit = true) (hd : d.isDigit = false) :
    ¬ c = d := by
  intro e
  subst e
  rw [h] at hd
  cases hd

theorem digit_jsonEscape {c : Char} (h : c.isDigit = true) : jsonEscapeChar c = [c] := by
  have hb : 48 ≤ c.toNat ∧ c.toNat ≤ 57 := by simpa [Char.isDigit] using h
  have h32 : ¬ c.toNat < 32 := by omega
  simp only [jsonEscapeChar, if_neg (digit_ne '"' h (by decide)),
    if_neg (digit_ne '\\' h (by decide)), if_neg (digit_ne '\n' h (by decide)),
    if_neg (digit_ne '\r' h (by decide)), if_neg (digit_ne '\t' h (by decide)),
    if_neg (digit_ne '\x08' h (by decide)), if_neg (digit_ne '\x0c' h (by decide)),
    if_neg h32]

theorem attrEscape_all_safe : ∀ {l : List Char}, (∀ c ∈ l, ¬ c = '<') →
    attrEscape l = .ok l := by
  intro l
  induction l with
  | nil => intro _; rfl
  | cons c rest ih =>
    intro h
    have hc : ¬ (c = '<' ∧ ['>', '"'].isPrefixOf rest) :=
      fun hp => h c (List.mem_cons_self c rest) hp.1
    rw [attrEscape, if_neg hc, ih (fun d hd => h d (List.mem_cons_of_mem c hd))]
    rfl

theorem jsonStrL_plain {l : List Char} (h : ∀ c ∈ l, jsonEscapeChar c = [c]) :
    jsonStrL l = '"' :: l ++ ['"'] := by
  unfold jsonStrL
  rw [List.map_congr_left h]
  congr 1
  have hfl : ∀ m : List Char, (m.map (fun c => [c])).flatten = m := by
    intro m
    induction m with
    | nil => rfl
    | cons c t ih => simp [ih]
  rw [hfl]

theorem exOk_error {ε α : Type} (e : ε) : exOk (α := α) (.error e) = false := rfl

theorem attr_nat (n : Nat) : attr (toString n) = .ok ("\"" ++ toString n ++ "\"") := by
  have hd := toString_nat_digits n
  unfold attr
  rw [attrEscape_all_safe (fun c hc => digit_ne '<' (hd c hc) (by decide))]
  show Except.ok (String.mk (jsonStrL (toString n).data)) = _
  congr 1
  apply String.ext
  rw [jsonStrL_plain (fun c hc => digit_jsonEscape (hd c hc))]
  rw [String.data_append, String.data_append]
  rfl

/-! ### Claim theorems -/

/-- C1: the spec claims `attr` escapes every `<` to `&lt;`, `>` to `&gt;`
and `"` to `&quot;` and leaves everything else unchanged.  The code does
not: its regex `/<>"/g` lacks character-class brackets, so it matches
only the literal three-character sequence `<>"`.  A lone `<` (input
`a<b`) passes through unescaped, and an input that does contain the
sequence `<>"` makes `attr` throw `Unknown character` (the callback's
`switch` receives the whole three-character match). -/
theorem C1_attr_does_not_escape :
    attr "a<b" = .ok "\"a<b\"" ∧
    substrB "&lt;".data ("\"a<b\"").data = false ∧
    substrB "<".data ("\"a<b\"").data = true ∧
    attr "x<>\"y" = .error "Unknown character: \x60<>\"\x60" :=
  ⟨rfl, by decide, by decide, rfl⟩

/-- C2: the spec claims every compiled `visit` step passes an option
named `waitUntil` set to the network-idle condition.  The generated
`page.goto` call instead carries the misspelled option name `waitUtil`
(so the real puppeteer API would ignore it): the compiled program
contains `waitUtil: 'networkidle0'` and never the name `waitUntil`. -/
theorem C2_goto_option_misspelled :
    compile "visit http://x" "shot.png" ⟨"shot.png", "alt", 800, 0, 0, 0, false⟩
      = .ok (renderScript [.visit (some "http://x")] "shot.png"
          ⟨"shot.png", "alt", 800, 0, 0, 0, false⟩) ∧
    substrB "waitUtil: \x27networkidle0\x27".data
      (renderScript [.visit (some "http://x")] "shot.png"
        ⟨"shot.png", "alt", 800, 0, 0, 0, false⟩).data = true ∧
    substrB "waitUntil".data
      (renderScript [.visit (some "http://x")] "shot.png"
        ⟨"shot.png", "alt", 800, 0, 0, 0, false⟩).data = false :=
  ⟨rfl, by decide, by decide⟩

/-- C4: a full-page screenshot request (`height = 0`, the default) with
nonzero `x` or `y` fails the validation asserts before any side effect
(the effect trace is empty), and the error message names the offending
offset fields `x and y`. -/
theorem C4_fullpage_offset_rejected (args : Args) (assets : String) (bn : String)
    (pos data : Option String) (body : String) (env : Env)
    (hbn : ¬ bn = "")
    (hext : extname args.filename.data = ".png".data)
    (hw : args.width > 0)
    (hh : args.height = 0)
    (hxy : args.x ≠ 0 ∨ args.y ≠ 0) :
    screenshot args assets (some bn) pos data body env
      = ([], .error "cannot specify x and y for fullscreen screenshots (height=0)") ∧
    substrB "x and y".data
      "cannot specify x and y for fullscreen screenshots (height=0)".data = true := by
  refine ⟨?_, by decide⟩
  have h4 : ¬ (args.height ≠ 0 ∨ (args.x = 0 ∧ args.y = 0)) := by
    rintro (h | ⟨hx, hy⟩)
    · exact h hh
    · rcases hxy with h | h
      · exact h hx
      · exact h hy
  simp only [screenshot]
  rw [if_neg hbn, if_neg (not_not_intro hext), if_neg (not_not_intro hw), if_pos h4]

/-- C4 witness. -/
theorem C4_fullpage_offset_rejected_witness :
    screenshot ⟨"shot.png", "alt", 800, 0, 3, 0, false⟩ "assets" (some "guide.md")
      none none "visit http://x" ⟨true, 800, 600⟩
      = ([], .error "cannot specify x and y for fullscreen screenshots (height=0)") :=
  (C4_fullpage_offset_rejected ⟨"shot.png", "alt", 800, 0, 3, 0, false⟩ "assets" "guide.md"
    none none "visit http://x" ⟨true, 800, 600⟩ (by decide) (by decide) (by decide) rfl
    (.inl (by decide))).1

/-- C6: when the filename does not end in `.png`, the handler fails
before creating the output directory: the effect trace is empty (in
particular there is no `mkdirp`) and the result is an error.  This holds
whatever the document basename is (a missing basename also fails before
any effect). -/
theorem C6_bad_extension_no_mkdir (args : Args) (assets : String) (vb : Option String)
    (pos data : Option String) (body : String) (env : Env)
    (hext : ¬ extname args.filename.data = ".png".data) :
    (screenshot args assets vb pos data body env).1 = [] ∧
    exOk (screenshot args assets vb pos data body env).2 = false := by
  cases vb with
  | none => exact ⟨rfl, rfl⟩
  | some vbn =>
    by_cases hb : vbn = ""
    · subst hb
      exact ⟨rfl, rfl⟩
    · simp only [screenshot]
      rw [if_neg hb, if_pos hext]
      exact ⟨rfl, rfl⟩

/-- C6 witness. -/
theorem C6_bad_extension_no_mkdir_witness :
    (screenshot ⟨"shot.txt", "alt", 800, 0, 0, 0, false⟩ "assets" (some "guide.md")
      none none "visit http://x" ⟨true, 800, 600⟩).1 = [] ∧
    exOk (screenshot ⟨"shot.txt", "alt", 800, 0, 0, 0, false⟩ "assets" (some "guide.md")
      none none "visit http://x" ⟨true, 800, 600⟩).2 = false :=
  C6_bad_extension_no_mkdir ⟨"shot.txt", "alt", 800, 0, 0, 0, false⟩ "assets"
    (some "guide.md") none none "visit http://x" ⟨true, 800, 600⟩ (by decide)

/-- How JS `split(/\\s+/, 2)` behaves on a well-formed directive line
`<verb> <arg> <extra...>`: the verb and the first token after it are
returned, everything after the second whitespace run is dropped by the
limit of 2. -/
theorem jsSplitWs2_verb (v a r : List Char)
    (hv : ∀ c ∈ v, isWsChar c = false)
    (ha : a ≠ []) (haw : ∀ c ∈ a, isWsChar c = false) :
    jsSplitWs2 (v ++ ' ' :: (a ++ ' ' :: r)) = (v, some a) := by
  have hv' : ∀ c ∈ v, (!isWsChar c) = true := fun c hc => by rw [hv c hc]; rfl
  have ha' : ∀ c ∈ a, (!isWsChar c) = true := fun c hc => by rw [haw c hc]; rfl
  unfold jsSplitWs2
  rw [List.takeWhile_append_of_pos hv', List.dropWhile_append_of_pos hv']
  rw [List.takeWhile_cons_of_neg (by decide), List.append_nil]
  rw [List.dropWhile_cons_of_neg (by decide)]
  simp only []
  rw [List.dropWhile_cons_of_pos (by decide)]
  cases a with
  | nil => exact absurd rfl ha
  | cons c a2 =>
    have hc : isWsChar c = true → False := by
      intro h
      rw [haw c (List.mem_cons_self c a2)] at h
      cases h
    rw [List.cons_append, List.dropWhile_cons_of_neg (fun h => hc h), ← List.cons_append]
    rw [List.takeWhile_append_of_pos ha', List.takeWhile_cons_of_neg (by decide),
      List.append_nil]

/-- C10: only the first whitespace-separated token after the verb is used
as the directive argument; any further whitespace-separated text on the
line (a selector containing spaces, extra tokens after a url) is silently
discarded by the `split(/\\s+/, 2)` limit rather than rejected — the line
still compiles, to the step carrying just that first token. -/
theorem C10_extra_tokens_discarded (a rest : String) (ha : ¬ a = "")
    (haw : ∀ c ∈ a.data, isWsChar c = false) :
    parseStep ("visit " ++ a ++ " " ++ rest).data = .ok (.visit (some a)) ∧
    parseStep ("wait " ++ a ++ " " ++ rest).data = .ok (.wait (some a)) := by
  have hane : a.data ≠ [] := fun h => ha (String.ext h)
  have hd1 : ("visit " ++ a ++ " " ++ rest).data
      = "visit".data ++ ' ' :: (a.data ++ ' ' :: rest.data) := by
    simp only [String.data_append, List.append_assoc]
    rfl
  have hd2 : ("wait " ++ a ++ " " ++ rest).data
      = "wait".data ++ ' ' :: (a.data ++ ' ' :: rest.data) := by
    simp only [String.data_append, List.append_assoc]
    rfl
  constructor
  · rw [hd1]
    unfold parseStep
    rw [jsSplitWs2_verb "visit".data a.data rest.data (by decide) hane haw]
    rfl
  · rw [hd2]
    unfold parseStep
    rw [jsSplitWs2_verb "wait".data a.data rest.data (by decide) hane haw]
    dsimp only
    rw [if_neg (by decide)]
    rfl

/-- C10 witness. -/
theorem C10_extra_tokens_discarded_witness :
    parseStep ("visit " ++ "http://x" ++ " " ++ "trailing junk").data
      = .ok (.visit (some "http://x")) ∧
    parseStep ("wait " ++ "#main" ++ " " ++ ".sub selector").data
      = .ok (.wait (some "#main")) :=
  ⟨(C10_extra_tokens_discarded "http://x" "trailing junk" (by decide) (by decide)).1,
   (C10_extra_tokens_discarded "#main" ".sub selector" (by decide) (by decide)).2⟩

/-- Empty lines are skipped by the compilation loop. -/
theorem compileSteps_skip_empty (rest : List (List Char)) :
    compileSteps ([] :: rest) = compileSteps rest := rfl

/-- Unfolding of the compilation loop at a non-empty line. -/
theorem compileSteps_cons_ne (line : List Char) (rest : List (List Char)) (h : ¬ line = []) :
    compileSteps (line :: rest)
      = match parseStep line with
        | .error e => .error e
        | .ok s => (compileSteps rest).map (s :: ·) := by
  simp only [compileSteps, if_neg h]

/-- Skipping the empty lines up front does not change compilation. -/
theorem compileSteps_filter : ∀ lines : List (List Char),
    compileSteps lines = compileSteps (lines.filter (fun s => !s.isEmpty)) := by
  intro lines
  induction lines with
  | nil => rfl
  | cons line rest ih =>
    by_cases h : line = []
    · subst h
      rw [compileSteps_skip_empty, show List.filter (fun s => !s.isEmpty) ([] :: rest)
            = List.filter (fun s => !s.isEmpty) rest by simp]
      exact ih
    · have hpr : (!line.isEmpty) = true := by
        cases line with
        | nil => exact absurd rfl h
        | cons c t => rfl
      rw [show List.filter (fun s => !s.isEmpty) (line :: rest)
            = line :: List.filter (fun s => !s.isEmpty) rest by
          simp [List.filter_cons, hpr]]
      rw [compileSteps_cons_ne line rest h, compileSteps_cons_ne line _ h, ih]

/-- On a list of non-empty lines, a successful compilation yields exactly
one step per line, in order. -/
theorem compileSteps_ok_spec : ∀ (lines : List (List Char)) (l : List Step),
    (∀ s ∈ lines, s ≠ []) → compileSteps lines = .ok l →
    l.length = lines.length ∧
    ∀ i (h1 : i < lines.length) (h2 : i < l.length),
      parseStep (lines.get ⟨i, h1⟩) = .ok (l.get ⟨i, h2⟩) := by
  intro lines
  induction lines with
  | nil =>
    intro l _ hok
    have hl : ([] : List Step) = l := by simpa [compileSteps] using hok
    subst hl
    exact ⟨rfl, fun i h1 _ => absurd h1 (Nat.not_lt_zero i)⟩
  | cons line rest ih =>
    intro l hne hok
    have hl : line ≠ [] := hne line (List.mem_cons_self line rest)
    rw [compileSteps_cons_ne line rest hl] at hok
    cases hp : parseStep line with
    | error e => rw [hp] at hok; simp at hok
    | ok s =>
      rw [hp] at hok
      cases hr : compileSteps rest with
      | error e => rw [hr] at hok; simp [Except.map] at hok
      | ok l2 =>
        rw [hr] at hok
        have hok2 : s :: l2 = l := by simpa [Except.map] using hok
        subst hok2
        obtain ⟨hlen, hidx⟩ := ih l2 (fun t ht => hne t (List.mem_cons_of_mem line ht)) hr
        refine ⟨by simp [hlen], ?_⟩
        intro i h1 h2
        cases i with
        | zero => simpa using hp
        | succ n =>
          have h1n : n < rest.length := by simpa using h1
          have h2n : n < l2.length := by simpa using h2
          simpa using hidx n h1n h2n

/-- A non-empty line whose first token is neither `visit` nor `wait`
makes the whole compilation throw `Unknown action`. -/
theorem compileSteps_error_of_bad : ∀ (lines : List (List Char)) (line : List Char),
    line ∈ lines → line ≠ [] →
    (jsSplitWs2 line).1 ≠ "visit".data → (jsSplitWs2 line).1 ≠ "wait".data →
    ∃ e, compileSteps lines = .error e := by
  intro lines
  induction lines with
  | nil => intro line h; cases h
  | cons x rest ih =>
    intro line hmem hne hv hw
    rcases List.mem_cons.mp hmem with rfl | hmem2
    · have hp : parseStep line
          = .error ("Unknown action: " ++ String.mk (jsSplitWs2 line).1) := by
        simp only [parseStep]
        rw [if_neg hv, if_neg hw]
      exact ⟨_, by rw [compileSteps_cons_ne line rest hne, hp]⟩
    · by_cases hx : x = []
      · subst hx
        obtain ⟨e, he⟩ := ih line hmem2 hne hv hw
        exact ⟨e, by rw [compileSteps_skip_empty, he]⟩
      · obtain ⟨e, he⟩ := ih line hmem2 hne hv hw
        cases hp : parseStep x with
        | error e2 => exact ⟨e2, by rw [compileSteps_cons_ne x rest hx, hp]⟩
        | ok s => exact ⟨e, by rw [compileSteps_cons_ne x rest hx, hp, he]; rfl⟩

/-- When step compilation throws, the handler propagates the error and
its effect trace contains no child-process execution: `compile` runs
after `mkdirp` but before `exec`, so no browser is ever spawned. -/
theorem screenshot_no_exec_of_compile_error (args : Args) (assets : String)
    (vb : Option String) (pos data : Option String) (body : String) (env : Env) (e : String)
    (hc : compileSteps (splitNl body.data) = .error e) :
    exOk (screenshot args assets vb pos data body env).2 = false ∧
    ∀ eff ∈ (screenshot args assets vb pos data body env).1, eff.isExec = false := by
  rcases vb with _ | vbn
  · exact ⟨rfl, fun eff h => nomatch h⟩
  · simp only [screenshot]
    by_cases h1 : vbn = ""
    · rw [if_pos h1]
      exact ⟨rfl, fun eff h => nomatch h⟩
    rw [if_neg h1]
    by_cases h2 : ¬ extname args.filename.data = ".png".data
    · rw [if_pos h2]
      exact ⟨rfl, fun eff h => nomatch h⟩
    rw [if_neg h2]
    by_cases h3 : ¬ args.width > 0
    · rw [if_pos h3]
      exact ⟨rfl, fun eff h => nomatch h⟩
    rw [if_neg h3]
    by_cases h4 : ¬ (args.height ≠ 0 ∨ (args.x = 0 ∧ args.y = 0))
    · rw [if_pos h4]
      exact ⟨rfl, fun eff h => nomatch h⟩
    rw [if_neg h4]
    simp only [compile, hc, Except.map]
    refine ⟨rfl, ?_⟩
    intro eff h
    have he := List.mem_singleton.mp h
    subst he
    rfl

/-- C3: compilation yields exactly one automation step per non-empty line
of the body, in the order the lines appear (blank lines contribute
nothing); a non-empty line whose first whitespace-separated token is
neither `visit` nor `wait` makes compilation fail with a hard error, in
which case the handler returns that error and its effect trace contains
no process execution (no browser is spawned, no step runs). -/
theorem C3_one_step_per_nonempty_line (body : String) :
    (∀ l, compileSteps (splitNl body.data) = .ok l →
       l.length = ((splitNl body.data).filter (fun s => !s.isEmpty)).length ∧
       ∀ i (h1 : i < ((splitNl body.data).filter (fun s => !s.isEmpty)).length)
         (h2 : i < l.length),
         parseStep (((splitNl body.data).filter (fun s => !s.isEmpty)).get ⟨i, h1⟩)
           = .ok (l.get ⟨i, h2⟩)) ∧
    (∀ line ∈ splitNl body.data, line ≠ [] →
       (jsSplitWs2 line).1 ≠ "visit".data → (jsSplitWs2 line).1 ≠ "wait".data →
       ∃ e, compileSteps (splitNl body.data) = .error e) ∧
    (∀ e (args : Args) (assets : String) (vb : Option String) (pos data : Option String)
       (env : Env), compileSteps (splitNl body.data) = .error e →
       exOk (screenshot args assets vb pos data body env).2 = false ∧
       ∀ eff ∈ (screenshot args assets vb pos data body env).1, eff.isExec = false) := by
  refine ⟨?_, ?_, ?_⟩
  · intro l hok
    rw [compileSteps_filter] at hok
    have hne : ∀ s ∈ (splitNl body.data).filter (fun s => !s.isEmpty), s ≠ [] := by
      intro s hs he
      have hp := List.of_mem_filter hs
      subst he
      simp at hp
    exact compileSteps_ok_spec _ l hne hok
  · intro line hmem hne hv hw
    exact compileSteps_error_of_bad _ line hmem hne hv hw
  · intro e args assets vb pos data env hc
    exact screenshot_no_exec_of_compile_error args assets vb pos data body env e hc

/-- C3 witness. -/
theorem C3_one_step_per_nonempty_line_witness :
    compileSteps (splitNl "visit http://x\nwait #ok\n".data)
      = .ok [.visit (some "http://x"), .wait (some "#ok")] ∧
    [Step.visit (some "http://x"), Step.wait (some "#ok")].length
      = ((splitNl "visit http://x\nwait #ok\n".data).filter (fun s => !s.isEmpty)).length ∧
    (∃ e, compileSteps (splitNl "visit http://x\nwait #ok\nfrob z".data) = .error e) ∧
    exOk (screenshot ⟨"shot.png", "alt", 800, 0, 0, 0, false⟩ "assets" (some "guide.md")
        none none "visit http://x\nwait #ok\nfrob z" ⟨true, 800, 600⟩).2 = false := by
  refine ⟨rfl, ?_, ?_, ?_⟩
  · exact ((C3_one_step_per_nonempty_line "visit http://x\nwait #ok\n").1 _ rfl).1
  · exact (C3_one_step_per_nonempty_line "visit http://x\nwait #ok\nfrob z").2.1
      "frob z".data (by decide) (by decide) (by decide) (by decide)
  · have hc : compileSteps (splitNl "visit http://x\nwait #ok\nfrob z".data)
        = .error "Unknown action: frob" := rfl
    exact ((C3_one_step_per_nonempty_line "visit http://x\nwait #ok\nfrob z").2.2
      "Unknown action: frob" ⟨"shot.png", "alt", 800, 0, 0, 0, false⟩ "assets"
      (some "guide.md") none none ⟨true, 800, 600⟩ hc).1

theorem substrB_self (p : List Char) : substrB p p = true := by
  cases p with
  | nil => rfl
  | cons c t => exact substrB_of_isPref ( List.isPrefixOf_iff_prefix.mpr (List.prefix_refl _))

theorem substrB_of_eq_append {p s : List Char} (a b : List Char)
    (h : s = a ++ (p ++ b)) : substrB p s = true := by
  subst h
  exact substrB_append_left a (substrB_append_right b (substrB_self p))

/-- C8 counterexample: for a full-page request (height = 0) the generated
program does not set a viewport whose height equals the given height —
`height || 100` replaces the falsy `0` by `100`, and the rendered
`setViewport` call carries `"height":100` while the Args height is 0. -/
theorem C8_viewport_height_cex :
    (mkViewport ⟨"shot.png", "alt", 800, 0, 0, 0, false⟩).height = 100 ∧
    (⟨"shot.png", "alt", 800, 0, 0, 0, false⟩ : Args).height = 0 ∧
    substrB "\"height\":100".data
      (prologue ⟨"shot.png", "alt", 800, 0, 0, 0, false⟩).data = true :=
  ⟨rfl, rfl, by decide⟩

/-- C8 (amended): for every Args record, the generated program sets a
viewport whose width equals the given width and whose device scale factor
is 2 when retina is set and 1 otherwise; its height equals the given
height when that is nonzero, and 100 when the given height is 0
(full-page mode), because of the `height || 100` fallback. -/
theorem C8_viewport_from_args (args : Args) (body path : String) (s : List Step)
    (hc : compileSteps (splitNl body.data) = .ok s) :
    compile body path args = .ok (renderScript s path args) ∧
    substrB ("await page.setViewport(" ++ renderViewport (mkViewport args) ++ ");").data
      (renderScript s path args).data = true ∧
    (mkViewport args).width = args.width ∧
    (mkViewport args).deviceScaleFactor = (if args.retina then 2 else 1) ∧
    (mkViewport args).height = (if args.height = 0 then 100 else args.height) := by
  refine ⟨?_, ?_, rfl, rfl, rfl⟩
  · unfold compile
    rw [hc]
    rfl
  · unfold renderScript
    apply substrB_joinLines_head
    unfold prologue
    rw [show ("const puppeteer = require(\x27puppeteer\x27);\n\nasync function main() \x7b\n  let browser = await puppeteer.launch();\n  let page = await browser.newPage();\n  await page.setViewport(" : String)
          = "const puppeteer = require(\x27puppeteer\x27);\n\nasync function main() \x7b\n  let browser = await puppeteer.launch();\n  let page = await browser.newPage();\n  "
            ++ "await page.setViewport(" from by decide]
    rw [show (");\n" : String) = ");" ++ "\n" from by decide]
    apply substrB_of_eq_append
      ("const puppeteer = require(\x27puppeteer\x27);\n\nasync function main() \x7b\n  let browser = await puppeteer.launch();\n  let page = await browser.newPage();\n  ").data
      ['\n']
    simp only [String.data_append, List.append_assoc]

/-- C8 witness (for the amended theorem). -/
theorem C8_viewport_from_args_witness :
    compile "visit http://x" "p.png" ⟨"shot.png", "alt", 800, 0, 0, 0, true⟩
      = .ok (renderScript [.visit (some "http://x")] "p.png"
          ⟨"shot.png", "alt", 800, 0, 0, 0, true⟩) ∧
    (mkViewport ⟨"shot.png", "alt", 800, 0, 0, 0, true⟩).deviceScaleFactor = 2 ∧
    (mkViewport ⟨"shot.png", "alt", 800, 0, 0, 0, true⟩).height = 100 := by
  have h := C8_viewport_from_args ⟨"shot.png", "alt", 800, 0, 0, 0, true⟩
    "visit http://x" "p.png" [.visit (some "http://x")] rfl
  exact ⟨h.1, h.2.2.2.1, h.2.2.2.2⟩

/-- C9: whatever node a successful run returns — plain image node or raw
HTML node — it carries the original code block's `position` and `data`
fields unchanged. -/
theorem C9_position_data_preserved (args : Args) (assets : String) (vb : Option String)
    (pos data : Option String) (body : String) (env : Env) (node : Node)
    (h : (screenshot args assets vb pos data body env).2 = .ok node) :
    node.position = pos ∧ node.data = data := by
  unfold screenshot at h
  rcases vb with _ | vbn
  · simp at h
  · dsimp only at h
    split at h
    · simp at h
    split at h
    · simp at h
    split at h
    · simp at h
    split at h
    · simp at h
    split at h
    · simp at h
    split at h
    · simp at h
    split at h
    · split at h
      · simp at h
      · simp only [Except.ok.injEq] at h
        subst h
        exact ⟨rfl, rfl⟩
    · simp only [Except.ok.injEq] at h
      subst h
      exact ⟨rfl, rfl⟩

/-- C9 witness. -/
theorem C9_position_data_preserved_witness :
    (Node.image "/screenshots/guide/shot.png" "An alt" (some "pos7") (some "meta")).position
        = some "pos7" ∧
    (Node.image "/screenshots/guide/shot.png" "An alt" (some "pos7") (some "meta")).data
        = some "meta" :=
  C9_position_data_preserved ⟨"shot.png", "An alt", 800, 0, 0, 0, false⟩ "assets"
    (some "guide.md") (some "pos7") (some "meta") "visit http://x" ⟨true, 800, 600⟩
    (Node.image "/screenshots/guide/shot.png" "An alt" (some "pos7") (some "meta")) rfl

/-! ### Helper lemmas about the path helpers -/

theorem afterLastSlash_no_slash {m : List Char} (h : '/' ∉ m) : afterLastSlash m = m := by
  unfold afterLastSlash
  rw [List.takeWhile_eq_self_iff.mpr ?_, List.reverse_reverse]
  intro c hc
  have hm : c ∈ m := List.mem_reverse.mp hc
  have hne : ¬ c = '/' := fun e => h (e ▸ hm)
  simp [hne]

theorem mem_afterLastSlash {c : Char} {m : List Char} (h : c ∈ afterLastSlash m) : c ∈ m := by
  unfold afterLastSlash at h
  have h2 := List.mem_reverse.mp h
  exact List.mem_reverse.mp (( List.takeWhile_prefix _).subset h2)

theorem mem_jsBasename {c : Char} {m ext : List Char} (h : c ∈ jsBasename m ext) : c ∈ m := by
  simp only [jsBasename] at h
  split at h
  · cases h
  · split at h
    · exact mem_afterLastSlash (List.take_subset _ _ h)
    · exact mem_afterLastSlash h

theorem jsBasename_strip {l ext : List Char} (h0 : l ≠ []) (hsl : '/' ∉ l ++ ext) :
    jsBasename (l ++ ext) ext = l := by
  have hne : ¬ l ++ ext = ext := by
    intro e
    have hlen := congrArg List.length e
    rw [List.length_append] at hlen
    have hl0 : l.length = 0 := by omega
    exact h0 (List.length_eq_zero.mp hl0)
  simp only [jsBasename, if_neg hne]
  rw [afterLastSlash_no_slash hsl]
  rw [if_pos ⟨hne, List.isSuffixOf_iff_suffix.mpr (List.suffix_append l ext)⟩]
  rw [List.length_append, Nat.add_sub_cancel, List.take_left]

theorem extname_concat_png {base : List Char} (h0 : base ≠ []) (hs : '/' ∉ base) :
    extname (base ++ ".png".data) = ".png".data := by
  have hno : '/' ∉ base ++ ".png".data := by
    intro h
    rcases List.mem_append.mp h with h | h
    · exact hs h
    · exact absurd h (by decide)
  have hlp : 0 < base.length := List.length_pos.mpr h0
  simp only [extname]
  rw [afterLastSlash_no_slash hno]
  rw [List.reverse_append]
  rw [show (".png".data).reverse = ['g', 'n', 'p', '.'] from by decide]
  rw [show (['g', 'n', 'p', '.'] : List Char) ++ base.reverse
        = 'g' :: 'n' :: 'p' :: '.' :: base.reverse from rfl]
  rw [List.takeWhile_cons_of_pos (by decide), List.takeWhile_cons_of_pos (by decide),
    List.takeWhile_cons_of_pos (by decide), List.takeWhile_cons_of_neg (by decide)]
  rw [if_neg (by
    simp only [List.length_append, List.length_cons, List.length_nil]
    omega)]
  rw [if_neg (by
    simp only [List.length_append, List.length_cons, List.length_nil]
    omega)]
  decide

/-- `attr` succeeds and reduces to plain JSON quoting on strings without
a `<` character (in particular without the sequence the broken regex
matches). -/
theorem attr_ok_of_no_lt {s : String} (h : ∀ c ∈ s.data, ¬ c = '<') :
    attr s = .ok (jsonStr s) := by
  unfold attr
  rw [attrEscape_all_safe h]
  rfl

/-- The screenshot options embedded in the generated program always carry
the output path (both full-page and clipped branches). -/
theorem substrB_renderOptions (path : String) (args : Args) :
    substrB ("\"path\":" ++ jsonStr path).data (renderOptions path args).data = true := by
  unfold renderOptions
  by_cases hh : args.height = 0
  · rw [if_pos hh]
    apply substrB_of_eq_append ['\x7b'] (",\"type\":\"png\",\"fullPage\":true\x7d").data
    simp only [String.data_append, List.append_assoc]
    rfl
  · rw [if_neg hh]
    apply substrB_of_eq_append ['\x7b']
      ((",\"type\":\"png\",\"clip\":\x7b\"width\":" ++ toString args.width ++ ",\"height\":"
        ++ toString args.height ++ ",\"x\":" ++ toString args.x ++ ",\"y\":" ++ toString args.y
        ++ "\x7d\x7d").data)
    simp only [String.data_append, List.append_assoc]
    rfl

/-- The full generated program carries the output path in its
`page.screenshot(options)` call. -/
theorem substrB_path_in_renderScript (steps : List Step) (path : String) (args : Args) :
    substrB ("\"path\":" ++ jsonStr path).data (renderScript steps path args).data = true := by
  unfold renderScript
  rw [show prologue args :: (steps.map renderStep ++ [epilogue path args])
        = (prologue args :: steps.map renderStep) ++ [epilogue path args] from
      (List.cons_append _ _ _).symm]
  apply substrB_joinLines_last
  unfold epilogue
  rw [String.data_append, String.data_append]
  apply substrB_append_right
  apply substrB_append_left
  exact substrB_renderOptions path args

/-- C7: a successful non-retina screenshot block for a document with
basename `<bn>.md` writes the image at
`<assets>/screenshots/<bn>/<filename>` (the `mkdirp` targets that
directory and the executed program's screenshot options carry that path)
and returns a markdown image node whose url is
`/screenshots/<bn>/<filename>` and whose alt is the given alt text. -/
theorem C7_success_image_node (args : Args) (assets bn : String) (pos data : Option String)
    (body : String) (steps : List Step) (env : Env)
    (hbn0 : ¬ bn = "")
    (hbn_sl : '/' ∉ bn.data)
    (hext : extname args.filename.data = ".png".data)
    (hw : args.width > 0)
    (harg : args.height ≠ 0 ∨ (args.x = 0 ∧ args.y = 0))
    (hret : args.retina = false)
    (hcs : compileSteps (splitNl body.data) = .ok steps)
    (hexec : env.execOk = true) :
    screenshot args assets (some (bn ++ ".md")) pos data body env
      = ([.mkdirp (assets ++ "/screenshots/" ++ bn),
          .exec (renderScript steps (assets ++ "/screenshots/" ++ bn ++ "/" ++ args.filename) args)],
         .ok (.image ("/screenshots/" ++ bn ++ "/" ++ args.filename) args.alt pos data)) ∧
    substrB ("\"path\":" ++ jsonStr (assets ++ "/screenshots/" ++ bn ++ "/" ++ args.filename)).data
      (renderScript steps (assets ++ "/screenshots/" ++ bn ++ "/" ++ args.filename) args).data
      = true := by
  refine ⟨?_, substrB_path_in_renderScript _ _ _⟩
  have hbnd : bn.data ≠ [] := fun h => hbn0 (String.ext h)
  have hsl2 : '/' ∉ bn.data ++ ".md".data := by
    intro h
    rcases List.mem_append.mp h with h | h
    · exact hbn_sl h
    · exact absurd h (by decide)
  have hvb : ¬ (bn ++ ".md") = "" := by
    intro e
    have hd := congrArg String.data e
    rw [String.data_append] at hd
    exact absurd (List.append_eq_nil.mp hd).2 (by decide)
  have hns : String.mk (jsBasename (bn ++ ".md").data ".md".data) = bn := by
    rw [String.data_append, jsBasename_strip hbnd hsl2]
  have hif : ∀ {α : Type} (A B : α), (if args.retina = true then A else B) = B :=
    fun A B => if_neg (by rw [hret]; exact Bool.false_ne_true)
  have hife : ∀ {α : Type} (A B : α), (if env.execOk = false then A else B) = B :=
    fun A B => if_neg (by rw [hexec]; exact fun h => absurd h (by decide))
  simp only [screenshot]
  rw [if_neg hvb, if_neg (not_not_intro hext), if_neg (not_not_intro hw),
    if_neg (not_not_intro harg)]
  rw [hns]
  simp only [hif, hife, compile, hcs, Except.map]

/-- C7 witness. -/
theorem C7_success_image_node_witness :
    screenshot ⟨"shot.png", "An alt", 800, 0, 0, 0, false⟩ "assets" (some ("guide" ++ ".md"))
      (some "p") (some "d") "visit http://x" ⟨true, 800, 600⟩
      = ([.mkdirp ("assets" ++ "/screenshots/" ++ "guide"),
          .exec (renderScript [.visit (some "http://x")]
            ("assets" ++ "/screenshots/" ++ "guide" ++ "/" ++ "shot.png")
            ⟨"shot.png", "An alt", 800, 0, 0, 0, false⟩)],
         .ok (.image ("/screenshots/" ++ "guide" ++ "/" ++ "shot.png") "An alt"
           (some "p") (some "d"))) :=
  (C7_success_image_node ⟨"shot.png", "An alt", 800, 0, 0, 0, false⟩ "assets" "guide"
    (some "p") (some "d") "visit http://x" [.visit (some "http://x")] ⟨true, 800, 600⟩
    (by decide) (by decide) (by decide) (by decide) (.inr ⟨rfl, rfl⟩) rfl rfl rfl).1

/-- C5: a successful retina screenshot with input filename `<base>.png`
produces output filename `<base>@2x.png` (in the mkdirp/exec/imageSize
paths and in the emitted url), requests device pixel ratio 2 (and 1
whenever retina is unset), and emits a raw HTML node whose width and
height attributes are the produced image's pixel dimensions each divided
by 2 and floored. -/
theorem C5_retina_output (args : Args) (assets bn base : String) (pos data : Option String)
    (body : String) (steps : List Step) (env : Env)
    (hbn0 : ¬ bn = "")
    (hbn_sl : '/' ∉ bn.data)
    (hbase0 : ¬ base = "")
    (hbase_sl : '/' ∉ base.data)
    (hfn : args.filename = base ++ ".png")
    (hret : args.retina = true)
    (hw : args.width > 0)
    (harg : args.height ≠ 0 ∨ (args.x = 0 ∧ args.y = 0))
    (hcs : compileSteps (splitNl body.data) = .ok steps)
    (hexec : env.execOk = true)
    (halt : ∀ c ∈ args.alt.data, ¬ c = '<')
    (hbn_lt : '<' ∉ bn.data)
    (hbase_lt : '<' ∉ base.data) :
    screenshot args assets (some (bn ++ ".md")) pos data body env
      = ([.mkdirp (assets ++ "/screenshots/" ++ bn),
          .exec (renderScript steps
            (assets ++ "/screenshots/" ++ bn ++ "/" ++ (base ++ "@2x.png")) args),
          .imageSize (assets ++ "/screenshots/" ++ bn ++ "/" ++ (base ++ "@2x.png"))],
         .ok (.html
           ("<img src=" ++ jsonStr ("/screenshots/" ++ bn ++ "/" ++ (base ++ "@2x.png"))
             ++ " alt=" ++ jsonStr args.alt
             ++ " width=" ++ ("\"" ++ toString (env.imgW / 2) ++ "\"")
             ++ " height=" ++ ("\"" ++ toString (env.imgH / 2) ++ "\"") ++ ">")
           pos data)) ∧
    (mkViewport args).deviceScaleFactor = 2 ∧
    (∀ a : Args, a.retina = false → (mkViewport a).deviceScaleFactor = 1) := by
  have hbnd : bn.data ≠ [] := fun h => hbn0 (String.ext h)
  have hbased : base.data ≠ [] := fun h => hbase0 (String.ext h)
  have hslp : '/' ∉ base.data ++ ".png".data := by
    intro h
    rcases List.mem_append.mp h with h | h
    · exact hbase_sl h
    · exact absurd h (by decide)
  have hslm : '/' ∉ bn.data ++ ".md".data := by
    intro h
    rcases List.mem_append.mp h with h | h
    · exact hbn_sl h
    · exact absurd h (by decide)
  have hvb : ¬ (bn ++ ".md") = "" := by
    intro e
    have hd := congrArg String.data e
    rw [String.data_append] at hd
    exact absurd (List.append_eq_nil.mp hd).2 (by decide)
  have hext : extname args.filename.data = ".png".data := by
    rw [hfn, String.data_append]
    exact extname_concat_png hbased hbase_sl
  have hns : String.mk (jsBasename (bn ++ ".md").data ".md".data) = bn := by
    rw [String.data_append, jsBasename_strip hbnd hslm]
  have hfn2 : String.mk (jsBasename args.filename.data ".png".data) ++ "@2x.png"
      = base ++ "@2x.png" := by
    rw [hfn, String.data_append, jsBasename_strip hbased hslp]
  have hsrc_lt : ∀ c ∈ ("/screenshots/" ++ bn ++ "/" ++ (base ++ "@2x.png")).data,
      ¬ c = '<' := by
    intro c hc e
    subst e
    simp only [String.data_append, List.mem_append] at hc
    rcases hc with ((h1 | h2) | h3) | (h4 | h5)
    · exact absurd h1 (by decide)
    · exact hbn_lt h2
    · exact absurd h3 (by decide)
    · exact hbase_lt h4
    · exact absurd h5 (by decide)
  have himgTag : imgTag ("/screenshots/" ++ bn ++ "/" ++ (base ++ "@2x.png")) args.alt
      (env.imgW / 2) (env.imgH / 2)
      = .ok ("<img src=" ++ jsonStr ("/screenshots/" ++ bn ++ "/" ++ (base ++ "@2x.png"))
          ++ " alt=" ++ jsonStr args.alt
          ++ " width=" ++ ("\"" ++ toString (env.imgW / 2) ++ "\"")
          ++ " height=" ++ ("\"" ++ toString (env.imgH / 2) ++ "\"") ++ ">") := by
    unfold imgTag
    rw [attr_ok_of_no_lt hsrc_lt, attr_ok_of_no_lt halt, attr_nat, attr_nat]
    rfl
  have hif : ∀ {α : Type} (A B : α), (if args.retina = true then A else B) = A :=
    fun A B => if_pos hret
  have hife : ∀ {α : Type} (A B : α), (if env.execOk = false then A else B) = B :=
    fun A B => if_neg (by rw [hexec]; exact fun h => absurd h (by decide))
  refine ⟨?_, by simp [mkViewport, hret], fun a ha => by simp [mkViewport, ha]⟩
  simp only [screenshot]
  rw [if_neg hvb, if_neg (not_not_intro hext), if_neg (not_not_intro hw),
    if_neg (not_not_intro harg)]
  rw [hns]
  simp only [hif, hife, compile, hcs, Except.map]
  rw [hfn2, himgTag]

/-- C5 witness. -/
theorem C5_retina_output_witness :
    screenshot ⟨"shot.png", "An alt", 800, 0, 0, 0, true⟩ "assets" (some ("guide" ++ ".md"))
      (some "p") (some "d") "visit http://x" ⟨true, 799, 600⟩
      = ([.mkdirp ("assets" ++ "/screenshots/" ++ "guide"),
          .exec (renderScript [.visit (some "http://x")]
            ("assets" ++ "/screenshots/" ++ "guide" ++ "/" ++ ("shot" ++ "@2x.png"))
            ⟨"shot.png", "An alt", 800, 0, 0, 0, true⟩),
          .imageSize ("assets" ++ "/screenshots/" ++ "guide" ++ "/" ++ ("shot" ++ "@2x.png"))],
         .ok (.html
           ("<img src=" ++ jsonStr ("/screenshots/" ++ "guide" ++ "/" ++ ("shot" ++ "@2x.png"))
             ++ " alt=" ++ jsonStr "An alt"
             ++ " width=" ++ ("\"" ++ toString (399 : Nat) ++ "\"")
             ++ " height=" ++ ("\"" ++ toString (300 : Nat) ++ "\"") ++ ">")
           (some "p") (some "d"))) ∧
    (mkViewport ⟨"shot.png", "An alt", 800, 0, 0, 0, true⟩).deviceScaleFactor = 2 := by
  have h := C5_retina_output ⟨"shot.png", "An alt", 800, 0, 0, 0, true⟩ "assets" "guide" "shot"
    (some "p") (some "d") "visit http://x" [.visit (some "http://x")] ⟨true, 799, 600⟩
    (by decide) (by decide) (by decide) (by decide) rfl rfl (by decide) (.inr ⟨rfl, rfl⟩)
    rfl rfl (by decide) (by decide) (by decide)
  exact ⟨h.1, h.2.1⟩

end Screenshot
